import Mathlib

/-!
Shallow embedding of the value-marshalling core of this repository
(`src/value.rs` and `src/types.rs`): the dynamic `Value` union, its
equality / ordering / stringification, the `MultiValue` container with
its buffer pool, and the `FromLua` / `FromLuaMulti` conversion traits.

Machine floats (`f64`, the Lua `Number` type) are modelled by `Mlua.FP`:
an exact rational payload plus the three non-finite shapes that matter
for the comparison operators used by the source (`NaN`, `inf`, `-inf`).
Pointers are modelled as natural numbers with `0` as the null pointer.
Collaborator code that lives in this repository but outside the provided
sources (`crate::error`, `crate::string`, `crate::lua`, `crate::util`)
is modelled from the specification; each such definition carries a
`Modelled from the spec:` doc comment.
-/

namespace Mlua

/-- The host string type (`use std::string::String as StdString` in the
source). -/
abbrev StdString := String

/-- Model of an `f64` (`Number`): an exact rational for finite values plus
the non-finite shapes. `-0.0` and `0.0` are identified, which is sound for
the operations the source uses (`==`, `<`, `>`). -/
inductive FP where
  | finite (q : ℚ)
  | inf
  | neginf
  | nan
deriving DecidableEq

/-- IEEE `<` on the `FP` model: `NaN` is incomparable to everything. -/
def FP.lt : FP → FP → Bool
  | .finite a, .finite b => decide (a < b)
  | .finite _, .inf => true
  | .neginf, .finite _ => true
  | .neginf, .inf => true
  | _, _ => false

/-- IEEE `==` on the `FP` model: `NaN` is not equal to itself. -/
def FP.beq : FP → FP → Bool
  | .finite a, .finite b => decide (a = b)
  | .inf, .inf => true
  | .neginf, .neginf => true
  | _, _ => false

/-- Round-to-nearest, ties-to-even conversion of an integer to the nearest
`f64` value (53-bit significand), as performed by Rust's `as f64` cast.
Every `i64` is finite after conversion. -/
def roundIntToF64 (n : Int) : Int :=
  let a := n.natAbs
  if a ≤ 2 ^ 53 then n
  else
    let e := Nat.log2 a
    let s := e - 52
    let q := a / 2 ^ s
    let r := a % 2 ^ s
    let half := 2 ^ (s - 1)
    let q' := if half < r ∨ (r = half ∧ q % 2 = 1) then q + 1 else q
    if n < 0 then -(q' * 2 ^ s : Int) else (q' * 2 ^ s : Int)

/-- The `i64 as f64` cast (`a as Number` in the source). -/
def FP.ofInt (n : Int) : FP := .finite (roundIntToF64 n : ℚ)

/-- Rust `Ord::cmp` on `usize`-like naturals (used for pointer comparison). -/
def ncmp (a b : Nat) : Ordering :=
  if a < b then .lt else if b < a then .gt else .eq

/-- Rust `Ord::cmp` on `i64` (`Integer::cmp`). -/
def icmp (a b : Int) : Ordering :=
  if a < b then .lt else if b < a then .gt else .eq

/-- Rust `Ord::cmp` on `bool` (`false < true`). -/
def boolcmp : Bool → Bool → Ordering
  | false, true => .lt
  | true, false => .gt
  | _, _ => .eq

/-- Rust `Ord::cmp` on byte slices: lexicographic, a strict prefix is less. -/
def bcmp : List Nat → List Nat → Ordering
  | [], [] => .eq
  | [], _ :: _ => .lt
  | _ :: _, [] => .gt
  | a :: xs, b :: ys => (ncmp a b).then (bcmp xs ys)

/-- The inner `fn cmp_num(a: Number, b: Number)` of `Value::cmp`:
`Less` if `a < b`, `Greater` if `a > b`, otherwise `Equal` (so any
comparison involving `NaN` yields `Equal`). -/
def cmpNum (a b : FP) : Ordering :=
  if FP.lt a b then .lt else if FP.lt b a then .gt else .eq

/-- Modelled from the spec: the error enum of `crate::error` (not under
`src/`). Spec §7 lists the kinds this core surfaces: type-mismatch
(`FromLuaConversionError`), bad-argument (position + optional function
name, wrapping an unaltered cause), VM-raised runtime errors, and stack
space exhaustion. -/
inductive LuaError where
  | FromLuaConversionError (fromTy toTy : String) (message : Option String)
  | BadArgument (toFn : Option String) (pos : Nat) (name : Option String) (cause : LuaError)
  | RuntimeError (msg : String)
  | StackError
deriving DecidableEq

/-- Modelled from the spec: `Display` for the error type (used by the
`Value::Error` arm of `Value::to_string`). Only its existence matters to
the claims; the rendering is schematic. -/
def LuaError.display : LuaError → String
  | .FromLuaConversionError f t _ => "error converting Lua " ++ f ++ " to " ++ t
  | .BadArgument _ p _ _ => "bad argument #" ++ toString p
  | .RuntimeError m => "runtime error: " ++ m
  | .StackError => "stack error"

/-- Returns `true` exactly for the bad-argument error kind. -/
def LuaError.isBadArgument : LuaError → Bool
  | .BadArgument _ _ _ _ => true
  | _ => false

/-- Oracle for the VM side of `Value::to_string` on handle values:
whether `check_stack(state, 3)` succeeds, and the outcome of the
protected `luaL_tolstring` call (the produced bytes, or the VM error it
raised, e.g. from a `__tostring` metamethod). -/
structure ToStringVM where
  checkStackOk : Bool
  tolstring : Except LuaError (List Nat)

/-- Modelled from the spec: a handle into the VM's reference registry
(`crate::types::ValueRef`, not under `src/`). Only its identity pointer
(`to_pointer`) is observable to this core's comparisons. -/
structure RefM where
  ref : Nat
  vm : ToStringVM

/-- Modelled from the spec: an interned VM string (`crate::string::String`,
not under `src/`): raw byte content plus the handle's identity pointer. -/
structure LuaString where
  bytes : List Nat
  ref : Nat

/-- Modelled from the spec: a table handle. `eqMeta` is the outcome of
invoking the table's `__eq` metamethod on a pair of operand identities
(`none` when the table defines no `__eq`). -/
structure TableM where
  ref : Nat
  eqMeta : Option (Nat → Nat → Except LuaError Bool)
  vm : ToStringVM

/-- Modelled from the spec: a function handle. -/
structure FunctionM where
  ref : Nat
  vm : ToStringVM

/-- Modelled from the spec: a thread (coroutine) handle. -/
structure ThreadM where
  ref : Nat
  vm : ToStringVM

/-- Modelled from the spec: a userdata handle, with the same `__eq`
metamethod oracle as tables. -/
structure UserDataM where
  ref : Nat
  eqMeta : Option (Nat → Nat → Except LuaError Bool)
  vm : ToStringVM

/-- The dynamic `Value` union of `src/value.rs` (default build: the
feature-gated `Vector` variant is absent). Pointers are naturals with
`0` as null; `Error` holds the boxed error value. -/
inductive Value where
  | Nil
  | Boolean (b : Bool)
  | LightUserData (ptr : Nat)
  | Integer (n : Int)
  | Number (n : FP)
  | String (s : LuaString)
  | Table (t : TableM)
  | Function (f : FunctionM)
  | Thread (t : ThreadM)
  | UserData (u : UserDataM)
  | Error (e : LuaError)

/-- `Value::to_pointer`: identity pointer for `LightUserData` and the
five handle variants, null for everything else. -/
def Value.toPointer : Value → Nat
  | .LightUserData p => p
  | .String s => s.ref
  | .Table t => t.ref
  | .Function f => f.ref
  | .Thread t => t.ref
  | .UserData u => u.ref
  | _ => 0

/-- The `PartialEq for Value` implementation (`==`): no metamethod
dispatch, `Integer`/`Number` cross-compared after promoting the integer
to float, strings by byte content, handle variants by reference
identity, every other pair (including `Error` vs `Error`) unequal. -/
def Value.beq : Value → Value → Bool
  | .Nil, .Nil => true
  | .Boolean a, .Boolean b => decide (a = b)
  | .LightUserData a, .LightUserData b => decide (a = b)
  | .Integer a, .Integer b => decide (a = b)
  | .Integer a, .Number b => FP.beq (FP.ofInt a) b
  | .Number a, .Integer b => FP.beq a (FP.ofInt b)
  | .Number a, .Number b => FP.beq a b
  | .String a, .String b => decide (a.bytes = b.bytes)
  | .Table a, .Table b => decide (a.ref = b.ref)
  | .Function a, .Function b => decide (a.ref = b.ref)
  | .Thread a, .Thread b => decide (a.ref = b.ref)
  | .UserData a, .UserData b => decide (a.ref = b.ref)
  | _, _ => false

/-- Modelled from the spec: `Table::equals` (not under `src/`). Spec §4.1:
comparison "first tries a VM-level equality metamethod lookup on the left
operand, then the right if the left defines none; if neither defines one,
falls back to reference/structural equality". -/
def TableM.equals (a b : TableM) : Except LuaError Bool :=
  match a.eqMeta with
  | some f => f a.ref b.ref
  | none =>
    match b.eqMeta with
    | some g => g a.ref b.ref
    | none => .ok (decide (a.ref = b.ref))

/-- Modelled from the spec: `AnyUserData::equals` (not under `src/`),
with the same metamethod-then-reference-identity contract as tables. -/
def UserDataM.equals (a b : UserDataM) : Except LuaError Bool :=
  match a.eqMeta with
  | some f => f a.ref b.ref
  | none =>
    match b.eqMeta with
    | some g => g a.ref b.ref
    | none => .ok (decide (a.ref = b.ref))

/-- `Value::equals`: tables and userdata go through their metamethod-aware
`equals`; every other pair falls back to `==` wrapped in `Ok`. -/
def Value.equals (a b : Value) : Except LuaError Bool :=
  match a, b with
  | .Table x, .Table y => TableM.equals x y
  | .UserData x, .UserData y => UserDataM.equals x y
  | x, y => .ok (Value.beq x y)

/-- The arms of `Value::cmp` that follow the `Nil` and null-`LightUserData`
guard arms (the source's guarded match arms fall through to these). -/
def cmpAfterNull : Value → Value → Ordering
  | .Boolean a, .Boolean b => boolcmp a b
  | .Boolean _, _ => .lt
  | _, .Boolean _ => .gt
  | .Integer a, .Integer b => icmp a b
  | .Integer a, .Number b => cmpNum (FP.ofInt a) b
  | .Number a, .Integer b => cmpNum a (FP.ofInt b)
  | .Number a, .Number b => cmpNum a b
  | .Integer _, _ => .lt
  | .Number _, _ => .lt
  | _, .Integer _ => .gt
  | _, .Number _ => .gt
  | .String a, .String b => bcmp a.bytes b.bytes
  | .String _, _ => .lt
  | _, .String _ => .gt
  | a, b => ncmp a.toPointer b.toPointer

/-- `Value::cmp` (used to sort values for debug printing): `Nil` first,
then the equal/null `LightUserData` guard arms, then `cmpAfterNull`. -/
def Value.cmp (a b : Value) : Ordering :=
  match a, b with
  | .Nil, .Nil => .eq
  | .Nil, _ => .lt
  | _, .Nil => .gt
  | .LightUserData u1, .LightUserData u2 =>
    if u1 = u2 then .eq
    else if u1 = 0 then .lt
    else if u2 = 0 then .gt
    else cmpAfterNull (.LightUserData u1) (.LightUserData u2)
  | .LightUserData u1, b => if u1 = 0 then .lt else cmpAfterNull (.LightUserData u1) b
  | a, .LightUserData u2 => if u2 = 0 then .gt else cmpAfterNull a (.LightUserData u2)
  | a, b => cmpAfterNull a b

/-- Lowercase hexadecimal rendering of a pointer, for the
`format!("lightuserdata: {:p}", ..)` arm of `Value::to_string`
(the formatter itself is the standard library's, outside this repo). -/
def natToHex (n : Nat) : String := String.mk (Nat.toDigits 16 n)

/-- Modelled from the spec: "decimal text" rendering of a finite float
(the platform float formatter is outside this repository). For the dyadic
rationals that actual `f64` values are, this prints the exact finite
decimal expansion, integers without a fractional part — agreeing with the
Rust formatter on all values whose shortest round-tripping decimal is the
exact expansion (e.g. `1.5`, `0.25`, `2`). -/
def ratDecimal (q : ℚ) : String :=
  if q.den = 1 then toString q.num
  else
    match (List.range 1200).find? (fun k => 10 ^ k % q.den = 0) with
    | some k =>
      let m := q.num.natAbs * (10 ^ k / q.den)
      let ds := Nat.toDigits 10 m
      let ds := if ds.length ≤ k then List.replicate (k + 1 - ds.length) '0' ++ ds else ds
      let s := String.mk (ds.take (ds.length - k)) ++ "." ++ String.mk (ds.drop (ds.length - k))
      if q.num < 0 then "-" ++ s else s
    | none => toString q.num ++ "/" ++ toString q.den

/-- Decimal text of a float value, as the `n.to_string()` arm produces
(Rust prints `NaN`, `inf`, `-inf` for the non-finite shapes). -/
def fpToString : FP → String
  | .nan => "NaN"
  | .inf => "inf"
  | .neginf => "-inf"
  | .finite q => ratDecimal q

/-- Strict UTF-8 decoding of a byte sequence into unicode scalar values,
exactly as `str::from_utf8` validates: continuation bytes in `80..BF`,
no overlong encodings, no surrogates, nothing above `10FFFF`. -/
def utf8Decode : List Nat → Option (List Char)
  | [] => some []
  | b :: rest =>
    if b < 0x80 then
      (utf8Decode rest).map (fun cs => Char.ofNat b :: cs)
    else if 0xC2 ≤ b ∧ b ≤ 0xDF then
      match rest with
      | c :: rest2 =>
        if 0x80 ≤ c ∧ c ≤ 0xBF then
          (utf8Decode rest2).map (fun cs => Char.ofNat ((b - 0xC0) * 64 + (c - 0x80)) :: cs)
        else none
      | [] => none
    else if 0xE0 ≤ b ∧ b ≤ 0xEF then
      match rest with
      | c1 :: c2 :: rest3 =>
        let lo1 := if b = 0xE0 then 0xA0 else 0x80
        let hi1 := if b = 0xED then 0x9F else 0xBF
        if lo1 ≤ c1 ∧ c1 ≤ hi1 ∧ 0x80 ≤ c2 ∧ c2 ≤ 0xBF then
          (utf8Decode rest3).map
            (fun cs => Char.ofNat ((b - 0xE0) * 4096 + (c1 - 0x80) * 64 + (c2 - 0x80)) :: cs)
        else none
      | _ => none
    else if 0xF0 ≤ b ∧ b ≤ 0xF4 then
      match rest with
      | c1 :: c2 :: c3 :: rest4 =>
        let lo1 := if b = 0xF0 then 0x90 else 0x80
        let hi1 := if b = 0xF4 then 0x8F else 0xBF
        if lo1 ≤ c1 ∧ c1 ≤ hi1 ∧ 0x80 ≤ c2 ∧ c2 ≤ 0xBF ∧ 0x80 ≤ c3 ∧ c3 ≤ 0xBF then
          (utf8Decode rest4).map
            (fun cs =>
              Char.ofNat
                  ((b - 0xF0) * 262144 + (c1 - 0x80) * 4096 + (c2 - 0x80) * 64 + (c3 - 0x80)) ::
                cs)
        else none
      | _ => none
    else none

/-- UTF-8 decoding straight to a host string. -/
def utf8DecodeString (l : List Nat) : Option String := (utf8Decode l).map String.mk

/-- Modelled from the spec: `String::to_str` of `crate::string` (not under
`src/`). The call sites in `src/value.rs` show it is fallible
(`s.to_str()?` at the `to_string` arm, `s.to_str().ok()` in `as_str`,
distinct from the lossy `to_string_lossy`): it yields the decoded text for
valid UTF-8 content and a type-mismatch error otherwise. -/
def LuaString.to_str (s : LuaString) : Except LuaError String :=
  match utf8DecodeString s.bytes with
  | some t => .ok t
  | none => .error (.FromLuaConversionError "string" "&str" none)

/-- Result of the handle arm of `Value::to_string` (`check_stack(3)`, the
protected `luaL_tolstring` call, then decoding the produced bytes with
`String::to_str`), as a function of the VM oracle. -/
def tolstringResult (vm : ToStringVM) : Except LuaError String :=
  if vm.checkStackOk = false then .error .StackError
  else
    match vm.tolstring with
    | .error e => .error e
    | .ok bytes =>
      match utf8DecodeString bytes with
      | some t => .ok t
      | none => .error (.FromLuaConversionError "string" "&str" none)

/-- `Value::to_string`: the per-variant conversion of `src/value.rs`
(lines 140–167). The four handle variants go through the VM's generic
to-displayable-string conversion, modelled by `tolstringResult`. -/
def Value.to_string : Value → Except LuaError StdString
  | .Nil => .ok "nil"
  | .Boolean b => .ok (if b then "true" else "false")
  | .LightUserData p =>
    if p = 0 then .ok "null" else .ok ("lightuserdata: 0x" ++ natToHex p)
  | .Integer i => .ok (toString i)
  | .Number n => .ok (fpToString n)
  | .String s => s.to_str
  | .Table t => tolstringResult t.vm
  | .Function f => tolstringResult f.vm
  | .Thread t => tolstringResult t.vm
  | .UserData u => tolstringResult u.vm
  | .Error e => .ok e.display

/-- Modelled from the spec: the `StackGuard` of `crate::util` (not under
`src/`), spec §4.5: records the operand-stack top on construction and, on
every exit path, restores the stack to that recorded depth. -/
structure StackGuard where
  top : Nat

/-- Records the current stack depth (`StackGuard::new`). -/
def StackGuard.new (depth : Nat) : StackGuard := ⟨depth⟩

/-- Restores the stack to the recorded depth (`lua_settop` on drop),
whatever the current depth is. -/
def StackGuard.restore (g : StackGuard) (_cur : Nat) : Nat := g.top

/-- The handle arm of `Value::to_string` with its VM stack effect made
explicit (depth-passing). The guard is created at entry; `check_stack`
does not change the depth; `push_ref` pushes one slot; the protected
`luaL_tolstring` call consumes its one argument and leaves one result;
`pop_ref` anchors the result into the registry, popping one slot; and
every exit path — `check_stack` failure, a VM error raised inside the
protected call (e.g. by a `__tostring` metamethod), a string decoding
failure, or normal return — runs the guard's restore. -/
def toStringRef (vm : ToStringVM) (depth : Nat) : Except LuaError String × Nat :=
  let guard := StackGuard.new depth
  if vm.checkStackOk = false then (.error .StackError, guard.restore depth)
  else
    let d1 := depth + 1
    match vm.tolstring with
    | .error e => (.error e, guard.restore (d1 - 1))
    | .ok bytes =>
      let d2 := d1
      let d3 := d2 - 1
      match utf8DecodeString bytes with
      | none => (.error (.FromLuaConversionError "string" "&str" none), guard.restore d3)
      | some s => (.ok s, guard.restore d3)

/-- A growable double-ended buffer (`VecDeque`): a capacity and the held
values. `clear` keeps the capacity; `reserve n` guarantees room for `n`
more values beyond the current length. -/
structure Deque where
  cap : Nat
  vals : List Value

/-- `VecDeque::clear`: removes the values, keeps the allocation. -/
def Deque.clear (d : Deque) : Deque := ⟨d.cap, []⟩

/-- `VecDeque::reserve`: capacity for at least `n` additional values. -/
def Deque.reserve (d : Deque) (n : Nat) : Deque := ⟨max d.cap (d.vals.length + n), d.vals⟩

/-- The per-VM-instance pool of released `MultiValue` buffers. -/
def Pool := List Deque

/-- The `MultiValue` container: its backing deque and whether it holds a
VM association (`lua: Option<&Lua>`) that routes its buffer back to the
pool on drop. -/
structure MultiValueM where
  deque : Deque
  hasLua : Bool

/-- Modelled from the spec: `Lua::push_multivalue_to_pool` (not under
`src/`): the backing buffer is returned to the pool emptied. -/
def pushMultivalueToPool (pool : Pool) (d : Deque) : Pool := d.clear :: pool

/-- Modelled from the spec: `Lua::pop_multivalue_from_pool` (not under
`src/`): best-effort retrieval of a previously released buffer. -/
def popMultivalueFromPool (pool : Pool) : Option (Deque × Pool) :=
  match pool with
  | [] => none
  | d :: rest => some (d, rest)

/-- `impl Drop for MultiValue`: with a VM association, the backing deque
is taken and pushed to that instance's pool; without one, nothing
happens. -/
def MultiValueM.drop (mv : MultiValueM) (pool : Pool) : Pool :=
  if mv.hasLua then pushMultivalueToPool pool mv.deque else pool

/-- `MultiValue::with_lua_and_capacity`: try to reuse a pooled buffer,
reserving `capacity` slots if `capacity > 0`; otherwise allocate a fresh
deque with that capacity. The result carries the VM association. -/
def withLuaAndCapacity (pool : Pool) (capacity : Nat) : MultiValueM × Pool :=
  match popMultivalueFromPool pool with
  | some (d, rest) => (⟨if capacity > 0 then d.reserve capacity else d, true⟩, rest)
  | none => (⟨⟨capacity, []⟩, true⟩, pool)

/-- `impl IntoIterator for MultiValue`: the deque is taken out and the
container forgotten (`mem::forget`), so `Drop` never runs and no buffer
reaches any pool; the values are handed to the consumer in order. -/
def MultiValueM.intoIter (mv : MultiValueM) : List Value := mv.deque.vals

/-- `MultiValue::extend_from_values`: push each successful value to the
back, stopping at — and returning — the first error. The final container
contents are returned alongside the result. -/
def extendFromValues : List Value → List (Except LuaError Value) →
    Except LuaError Unit × List Value
  | acc, [] => (.ok (), acc)
  | acc, .ok v :: rest => extendFromValues (acc ++ [v]) rest
  | acc, .error e :: _ => (.error e, acc)

/-- `FromLua::from_lua_arg`: run the conversion and wrap any failure in
`Error::BadArgument { to, pos: i, name: None, cause }`. -/
def fromLuaArg {α : Type} (fromLua : Value → Except LuaError α) (arg : Value) (i : Nat)
    (toFn : Option String) : Except LuaError α :=
  match fromLua arg with
  | .ok v => .ok v
  | .error e => .error (.BadArgument toFn i none e)

/-- `FromLua::from_stack`: read the stack slot at `idx` and convert it. -/
def fromStack {α : Type} (fromLua : Value → Except LuaError α) (stackValue : Int → Value)
    (idx : Int) : Except LuaError α :=
  fromLua (stackValue idx)

/-- `FromLua::from_stack_arg`: `from_stack` with the same bad-argument
wrapping as `from_lua_arg`. -/
def fromStackArg {α : Type} (fromLua : Value → Except LuaError α) (stackValue : Int → Value)
    (idx : Int) (i : Nat) (toFn : Option String) : Except LuaError α :=
  match fromStack fromLua stackValue idx with
  | .ok v => .ok v
  | .error e => .error (.BadArgument toFn i none e)

/-- `FromLuaMulti::from_lua_args` (default body): discards the position
and function name (`let _ = (i, to)`) and just runs `from_lua_multi`. -/
def fromLuaArgs {α : Type} (fromLuaMulti : List Value → Except LuaError α) (args : List Value)
    (_i : Nat) (_toFn : Option String) : Except LuaError α :=
  fromLuaMulti args

/-- `FromLuaMulti::from_stack_args` (default body): discards the position
and function name and just runs `from_stack_multi`. -/
def fromStackArgs {α : Type} (fromStackMulti : Nat → Except LuaError α) (nargs : Nat)
    (_i : Nat) (_toFn : Option String) : Except LuaError α :=
  fromStackMulti nargs

/-- Modelled from the spec: the inbound multi-value conversion of a
consumer expecting `n` single values (`FromLuaMulti::from_lua_multi` for
an `n`-tuple of `FromLua` types; the tuple implementations are not under
`src/`). Per the trait's contract it reads each expected value from the
front of the sequence in turn, treating a missing value as `Nil` and
leaving any surplus values unread. -/
def readArgs : Nat → List Value → List Value
  | 0, _ => []
  | n + 1, [] => Value.Nil :: readArgs n []
  | n + 1, v :: rest => v :: readArgs n rest

/-- Values whose `equals` self-comparison is not decided by an `__eq`
metamethod, a `NaN` payload, or the `Error` fall-through of `==`. -/
def reflSafe : Value → Bool
  | .Error _ => false
  | .Number .nan => false
  | .Table t => t.eqMeta.isNone
  | .UserData u => u.eqMeta.isNone
  | _ => true

/-- Values with no `Number` (float) variant at the top level. -/
def numberFree : Value → Bool
  | .Number _ => false
  | _ => true

/-- The variant class rank induced by the arm order of `Value::cmp`:
`Nil`, then the null-`LightUserData` sentinel, then `Boolean`, then the
numeric class, then `String`, then everything compared by identity
pointer (non-null `LightUserData`, handles, `Error`). -/
def vrank : Value → Nat
  | .Nil => 0
  | .LightUserData p => if p = 0 then 1 else 5
  | .Boolean _ => 2
  | .Integer _ => 3
  | .Number _ => 3
  | .String _ => 4
  | _ => 5

/-- Membership in the identity-pointer comparison class of `Value::cmp`. -/
def isPtrClass : Value → Bool
  | .LightUserData p => decide (p ≠ 0)
  | .Table _ => true
  | .Function _ => true
  | .Thread _ => true
  | .UserData _ => true
  | .Error _ => true
  | _ => false

/-- Sort key realizing `Value::cmp` on `Number`-free values: the class
rank, then the integral payload (booleans encoded as 0/1, integers as
themselves), then the byte payload, then the identity pointer. -/
def key : Value → Nat × Int × List Nat × Nat
  | .Nil => (0, 0, [], 0)
  | .LightUserData p => if p = 0 then (1, 0, [], 0) else (5, 0, [], p)
  | .Boolean b => (2, if b then 1 else 0, [], 0)
  | .Integer i => (3, i, [], 0)
  | .Number _ => (3, 0, [], 0)
  | .String s => (4, 0, s.bytes, 0)
  | .Table t => (5, 0, [], t.ref)
  | .Function f => (5, 0, [], f.ref)
  | .Thread t => (5, 0, [], t.ref)
  | .UserData u => (5, 0, [], u.ref)
  | .Error _ => (5, 0, [], 0)

/-- Lexicographic comparison of sort keys. -/
def kcmp (k1 k2 : Nat × Int × List Nat × Nat) : Ordering :=
  (ncmp k1.1 k2.1).then
    ((icmp k1.2.1 k2.2.1).then ((bcmp k1.2.2.1 k2.2.2.1).then (ncmp k1.2.2.2 k2.2.2.2)))

/-- The concrete ordering chain of spec §8: `Nil`, null `LightUserData`,
`false`, `true`, `Integer(1)`, `Number(1.5)`, `String("a")`, a table. -/
def chain (t : TableM) : List Value :=
  [.Nil, .LightUserData 0, .Boolean false, .Boolean true, .Integer 1,
    .Number (.finite (3 / 2 : ℚ)), .String ⟨[97], 0⟩, .Table t]

/-- A multi-value conversion that always fails with a plain runtime
error (a stand-in `from_lua_multi` implementation). -/
def failMulti : List Value → Except LuaError Value := fun _ => .error (.RuntimeError "boom")

/-- A single-value conversion that always fails with a plain runtime
error (a stand-in `from_lua` implementation). -/
def failSingle : Value → Except LuaError Unit := fun _ => .error (.RuntimeError "bad type")

/-! Helper lemmas shared by the claim theorems. -/

theorem readArgs_eq (n : Nat) (vs : List Value) :
    readArgs n vs = vs.take n ++ List.replicate (n - vs.length) Value.Nil := by
  induction n generalizing vs with
  | zero => simp [readArgs]
  | succ m ih =>
    cases vs with
    | nil => simp [readArgs, ih, List.replicate_succ]
    | cons v rest => simp [readArgs, ih, Nat.succ_sub_succ]

theorem toStringRef_fst (vm : ToStringVM) (depth : Nat) :
    (toStringRef vm depth).1 = tolstringResult vm := by
  rcases vm with ⟨ok, tol⟩
  cases ok <;> cases tol <;>
    simp [toStringRef, tolstringResult, StackGuard.new, StackGuard.restore]
  case true.ok bytes =>
    rcases h : utf8DecodeString bytes with _ | t <;> simp [h]

theorem then_eq_right (o : Ordering) : o.then .eq = o := by
  cases o <;> rfl

theorem then_swap (o p : Ordering) : (o.then p).swap = o.swap.then p.swap := by
  cases o <;> rfl

theorem then_eq_iff {o p : Ordering} : o.then p = .eq ↔ o = .eq ∧ p = .eq := by
  cases o <;> simp [Ordering.then]

theorem then_lt_iff {o p : Ordering} : o.then p = .lt ↔ o = .lt ∨ (o = .eq ∧ p = .lt) := by
  cases o <;> simp [Ordering.then]

theorem ncmp_self (a : Nat) : ncmp a a = .eq := by
  simp [ncmp]

theorem ncmp_swap (a b : Nat) : ncmp b a = (ncmp a b).swap := by
  unfold ncmp
  rcases lt_trichotomy a b with h | h | h
  · simp [h, lt_asymm h, Ordering.swap]
  · subst h; simp [Ordering.swap]
  · simp [h, lt_asymm h, Ordering.swap]

theorem ncmp_lt_iff {a b : Nat} : ncmp a b = .lt ↔ a < b := by
  unfold ncmp; split_ifs <;> simp_all <;> omega

theorem ncmp_eq_iff {a b : Nat} : ncmp a b = .eq ↔ a = b := by
  unfold ncmp; split_ifs <;> simp_all <;> omega

theorem icmp_swap (a b : Int) : icmp b a = (icmp a b).swap := by
  unfold icmp
  rcases lt_trichotomy a b with h | h | h
  · simp [h, lt_asymm h, Ordering.swap]
  · subst h; simp [Ordering.swap]
  · simp [h, lt_asymm h, Ordering.swap]

theorem icmp_lt_iff {a b : Int} : icmp a b = .lt ↔ a < b := by
  unfold icmp; split_ifs <;> simp_all <;> omega

theorem icmp_eq_iff {a b : Int} : icmp a b = .eq ↔ a = b := by
  unfold icmp; split_ifs <;> simp_all <;> omega

theorem boolcmp_swap (a b : Bool) : boolcmp b a = (boolcmp a b).swap := by
  cases a <;> cases b <;> rfl

theorem boolcmp_eq_icmp (x y : Bool) :
    boolcmp x y = icmp (if x then 1 else 0) (if y then 1 else 0) := by
  cases x <;> cases y <;> rfl

theorem bcmp_swap (l1 l2 : List Nat) : bcmp l2 l1 = (bcmp l1 l2).swap := by
  induction l1 generalizing l2 with
  | nil => cases l2 <;> rfl
  | cons a xs ih =>
    cases l2 with
    | nil => rfl
    | cons b ys =>
      show (ncmp b a).then (bcmp ys xs) = ((ncmp a b).then (bcmp xs ys)).swap
      rw [then_swap, ncmp_swap a b, ih ys]

theorem bcmp_eq_iff {l1 l2 : List Nat} : bcmp l1 l2 = .eq ↔ l1 = l2 := by
  induction l1 generalizing l2 with
  | nil => cases l2 <;> simp [bcmp]
  | cons a xs ih =>
    cases l2 with
    | nil => simp [bcmp]
    | cons b ys => simp [bcmp, then_eq_iff, ncmp_eq_iff, ih]

theorem bcmp_lt_trans (l1 : List Nat) : ∀ l2 l3 : List Nat,
    bcmp l1 l2 = .lt → bcmp l2 l3 = .lt → bcmp l1 l3 = .lt := by
  induction l1 with
  | nil =>
    intro l2 l3 h12 h23
    cases l2 with
    | nil => simp [bcmp] at h12
    | cons b ys =>
      cases l3 with
      | nil => simp [bcmp] at h23
      | cons c zs => simp [bcmp]
  | cons a xs ih =>
    intro l2 l3 h12 h23
    cases l2 with
    | nil => simp [bcmp] at h12
    | cons b ys =>
      cases l3 with
      | nil => simp [bcmp] at h23
      | cons c zs =>
        simp only [bcmp, then_lt_iff, ncmp_lt_iff, ncmp_eq_iff] at h12 h23 ⊢
        rcases h12 with h | ⟨rfl, h⟩ <;> rcases h23 with g | ⟨rfl, g⟩
        · left; omega
        · left; exact h
        · left; exact g
        · right; exact ⟨rfl, ih ys zs h g⟩

theorem FP.ltAsymmetric (x y : FP) : FP.lt x y = true → FP.lt y x = true → False := by
  cases x <;> cases y <;> simp [FP.lt]
  exact fun h => le_of_lt h

theorem cmpNum_swap (x y : FP) : cmpNum y x = (cmpNum x y).swap := by
  unfold cmpNum
  cases hxy : FP.lt x y <;> cases hyx : FP.lt y x <;> simp [hxy, hyx, Ordering.swap]
  exact (FP.ltAsymmetric x y hxy hyx).elim

theorem kcmp_eq_iff {k1 k2 : Nat × Int × List Nat × Nat} : kcmp k1 k2 = .eq ↔ k1 = k2 := by
  obtain ⟨r1, i1, l1, p1⟩ := k1
  obtain ⟨r2, i2, l2, p2⟩ := k2
  simp [kcmp, then_eq_iff, ncmp_eq_iff, icmp_eq_iff, bcmp_eq_iff, and_assoc]

theorem kcmp_lt_trans {k1 k2 k3 : Nat × Int × List Nat × Nat}
    (h12 : kcmp k1 k2 = .lt) (h23 : kcmp k2 k3 = .lt) : kcmp k1 k3 = .lt := by
  obtain ⟨r1, i1, l1, p1⟩ := k1
  obtain ⟨r2, i2, l2, p2⟩ := k2
  obtain ⟨r3, i3, l3, p3⟩ := k3
  simp only [kcmp, then_lt_iff, ncmp_lt_iff, ncmp_eq_iff, icmp_lt_iff, icmp_eq_iff,
    bcmp_eq_iff] at h12 h23 ⊢
  rcases h12 with h | ⟨rfl, h12⟩
  · rcases h23 with g | ⟨rfl, _⟩
    · left; omega
    · left; exact h
  · rcases h23 with g | ⟨rfl, h23⟩
    · left; exact g
    · right; refine ⟨rfl, ?_⟩
      rcases h12 with h | ⟨rfl, h12⟩
      · rcases h23 with g | ⟨rfl, _⟩
        · left; omega
        · left; exact h
      · rcases h23 with g | ⟨rfl, h23⟩
        · left; exact g
        · right; refine ⟨rfl, ?_⟩
          rcases h12 with h | ⟨rfl, h12⟩
          · rcases h23 with g | ⟨rfl, _⟩
            · left; exact bcmp_lt_trans l1 l2 l3 h g
            · left; exact h
          · rcases h23 with g | ⟨rfl, g⟩
            · left; exact g
            · right; exact ⟨rfl, by omega⟩

theorem cmp_swap (a b : Value) : Value.cmp b a = (Value.cmp a b).swap := by
  cases a <;> cases b <;>
    simp only [Value.cmp, cmpAfterNull, Value.toPointer] <;>
    first
      | rfl
      | apply boolcmp_swap
      | apply icmp_swap
      | apply cmpNum_swap
      | apply bcmp_swap
      | apply ncmp_swap
      | (split_ifs <;> first | rfl | omega | apply ncmp_swap | simp_all)

theorem then_gt_iff {o p : Ordering} : o.then p = .gt ↔ o = .gt ∨ (o = .eq ∧ p = .gt) := by
  cases o <;> simp [Ordering.then]

theorem ncmp_gt_iff {a b : Nat} : ncmp a b = .gt ↔ b < a := by
  unfold ncmp; split_ifs <;> simp_all <;> omega

theorem kcmp_fst_lt {r1 r2 : Nat} {i1 i2 : Int} {l1 l2 : List Nat} {p1 p2 : Nat}
    (h : r1 < r2) : kcmp (r1, i1, l1, p1) (r2, i2, l2, p2) = .lt := by
  simp [kcmp, then_lt_iff, ncmp_lt_iff, h]

theorem kcmp_fst_gt {r1 r2 : Nat} {i1 i2 : Int} {l1 l2 : List Nat} {p1 p2 : Nat}
    (h : r2 < r1) : kcmp (r1, i1, l1, p1) (r2, i2, l2, p2) = .gt := by
  simp [kcmp, then_gt_iff, ncmp_gt_iff, h]

theorem eq_then_left (p : Ordering) : Ordering.eq.then p = p := rfl

theorem icmp_self (a : Int) : icmp a a = .eq := by
  simp [icmp]

theorem kcmp_diag_snd (r : Nat) (i1 i2 : Int) :
    kcmp (r, i1, [], 0) (r, i2, [], 0) = icmp i1 i2 := by
  simp [kcmp, ncmp_self, bcmp, eq_then_left, then_eq_right]

theorem kcmp_diag_bytes (r : Nat) (l1 l2 : List Nat) :
    kcmp (r, 0, l1, 0) (r, 0, l2, 0) = bcmp l1 l2 := by
  simp [kcmp, ncmp_self, icmp_self, eq_then_left, then_eq_right]

theorem kcmp_diag_ptr (r : Nat) (p1 p2 : Nat) :
    kcmp (r, 0, [], p1) (r, 0, [], p2) = ncmp p1 p2 := by
  simp [kcmp, ncmp_self, icmp_self, bcmp, eq_then_left]

theorem cmp_eq_kcmp (a b : Value) (ha : numberFree a = true) (hb : numberFree b = true) :
    Value.cmp a b = kcmp (key a) (key b) := by
  cases a <;> cases b <;>
    first
      | exact Bool.noConfusion (show false = true from ha)
      | exact Bool.noConfusion (show false = true from hb)
      | decide
      | exact (kcmp_fst_lt (by decide)).symm
      | exact (kcmp_fst_gt (by decide)).symm
      | exact (kcmp_diag_snd _ _ _).symm
      | exact (boolcmp_eq_icmp _ _).trans (kcmp_diag_snd _ _ _).symm
      | exact (kcmp_diag_bytes _ _ _).symm
      | exact (kcmp_diag_ptr _ _ _).symm
      | (simp only [Value.cmp, cmpAfterNull, key, Value.toPointer]
         first
           | exact (kcmp_diag_ptr _ _ _).symm
           | (split_ifs <;>
               first
                 | omega
                 | decide
                 | exact (kcmp_fst_lt (by decide)).symm
                 | exact (kcmp_fst_gt (by decide)).symm
                 | exact (kcmp_diag_ptr _ _ _).symm
                 | simp_all [kcmp_diag_ptr, ncmp_self]))

theorem cmp_rank_lt (a b : Value) (h : vrank a < vrank b) : Value.cmp a b = .lt := by
  cases a <;> cases b <;>
    simp only [vrank] at h <;>
    simp only [Value.cmp, cmpAfterNull] <;>
    (try split_ifs at h ⊢) <;>
    first | rfl | omega

theorem cmp_int1_lt_num32 :
    Value.cmp (.Integer 1) (.Number (.finite (3 / 2 : ℚ))) = .lt := by
  show cmpNum (FP.ofInt 1) (.finite (3 / 2 : ℚ)) = .lt
  simp [cmpNum, FP.ofInt, roundIntToF64, FP.lt]
  norm_num

/-! Theorems settling the claims. -/

/-- C1: the multi-value inbound conversion pads a short sequence with
trailing `Nil`s (3 values read as 5 yield 2 trailing `Nil`s) and ignores
surplus trailing values (5 values read as 3 drop the last 2); in general
a consumer expecting `n` values reads `take n` padded with `n - length`
`Nil`s. -/
theorem c1_from_lua_multi_pad_and_truncate :
    (∀ a b c : Value, readArgs 5 [a, b, c] = [a, b, c, .Nil, .Nil]) ∧
    (∀ a b c d e : Value, readArgs 3 [a, b, c, d, e] = [a, b, c]) ∧
    (∀ (n : Nat) (vs : List Value), vs.length ≤ n →
      readArgs n vs = vs ++ List.replicate (n - vs.length) Value.Nil) ∧
    (∀ (n : Nat) (vs : List Value), n ≤ vs.length → readArgs n vs = vs.take n) := by
  refine ⟨fun a b c => by simp [readArgs], fun a b c d e => by simp [readArgs], ?_, ?_⟩
  · intro n vs h
    rw [readArgs_eq, List.take_of_length_le h]
  · intro n vs h
    rw [readArgs_eq, Nat.sub_eq_zero_of_le h]
    simp

/-- C1 witness: reading 2 values from an empty sequence yields 2 `Nil`s;
reading 1 value from a 2-value sequence keeps only the first. -/
theorem c1_from_lua_multi_pad_and_truncate_witness :
    readArgs 2 ([] : List Value) =
      [] ++ List.replicate (2 - List.length ([] : List Value)) Value.Nil ∧
    readArgs 1 [Value.Nil, Value.Boolean true] = [Value.Nil, Value.Boolean true].take 1 :=
  ⟨c1_from_lua_multi_pad_and_truncate.2.2.1 2 [] (by simp),
    c1_from_lua_multi_pad_and_truncate.2.2.2 1 [Value.Nil, Value.Boolean true] (by simp)⟩

/-- C2 counterexample: for an `Error` value `v`, `v.equals(v)` is
`Ok(false)`, not `Ok(true)` — the `PartialEq` fall-through arm makes two
`Error` values unequal even when their content is identical. -/
theorem c2_equals_refl_counterexample :
    Value.equals (.Error (.RuntimeError "e")) (.Error (.RuntimeError "e")) = .ok false := rfl

/-- C2 amended: `v.equals(v)` returns `Ok(true)` for every value except
`Error` values, `NaN` numbers, and `Table`/`UserData` values carrying an
`__eq` metamethod (whose verdict the metamethod determines). -/
theorem c2_equals_refl_amended (v : Value) (h : reflSafe v = true) :
    Value.equals v v = .ok true := by
  cases v with
  | Nil => rfl
  | Boolean b => simp [Value.equals, Value.beq]
  | LightUserData p => simp [Value.equals, Value.beq]
  | Integer n => simp [Value.equals, Value.beq]
  | Number n => cases n <;> simp_all [reflSafe, Value.equals, Value.beq, FP.beq]
  | String s => simp [Value.equals, Value.beq]
  | Table t =>
    have ht : t.eqMeta = none := Option.isNone_iff_eq_none.mp (by simpa [reflSafe] using h)
    simp [Value.equals, TableM.equals, ht]
  | Function f => simp [Value.equals, Value.beq]
  | Thread t => simp [Value.equals, Value.beq]
  | UserData u =>
    have hu : u.eqMeta = none := Option.isNone_iff_eq_none.mp (by simpa [reflSafe] using h)
    simp [Value.equals, UserDataM.equals, hu]
  | Error e => simp [reflSafe] at h

/-- C2 witness: self-equality at concrete metamethod-free values. -/
theorem c2_equals_refl_amended_witness :
    Value.equals (.Integer 7) (.Integer 7) = .ok true ∧
    Value.equals (.Table ⟨3, none, ⟨true, .ok []⟩⟩) (.Table ⟨3, none, ⟨true, .ok []⟩⟩) =
      .ok true :=
  ⟨c2_equals_refl_amended (.Integer 7) (by decide),
    c2_equals_refl_amended (.Table ⟨3, none, ⟨true, .ok []⟩⟩) (by decide)⟩

/-- C3 counterexample: on a `String` value whose bytes are not valid
UTF-8 (`[0xFF]`), `Value::to_string` propagates the `to_str` conversion
error instead of succeeding lossily. -/
theorem c3_to_string_counterexample :
    Value.to_string (.String ⟨[255], 0⟩) =
      .error (.FromLuaConversionError "string" "&str" none) := rfl

/-- C3 amended: `Value::to_string` yields `Ok("nil")` for `Nil`,
`Ok("true")`/`Ok("false")` for booleans, `Ok("null")` for the null
`LightUserData`, pointer-tagged text for a non-null `LightUserData`,
decimal text for `Integer`/`Number`, and for a `String` value its
decoded text when the bytes are valid UTF-8 — but an error (not a lossy
conversion) when they are not. -/
theorem c3_to_string_amended :
    Value.to_string .Nil = .ok "nil" ∧
    (∀ b, Value.to_string (.Boolean b) = .ok (if b then "true" else "false")) ∧
    Value.to_string (.LightUserData 0) = .ok "null" ∧
    (∀ p : Nat, p ≠ 0 →
      Value.to_string (.LightUserData p) = .ok ("lightuserdata: 0x" ++ natToHex p)) ∧
    (∀ i : Int, Value.to_string (.Integer i) = .ok (toString i)) ∧
    (∀ n : FP, Value.to_string (.Number n) = .ok (fpToString n)) ∧
    (∀ (s : LuaString) (t : StdString), utf8DecodeString s.bytes = some t →
      Value.to_string (.String s) = .ok t) ∧
    (∀ s : LuaString, utf8DecodeString s.bytes = none →
      Value.to_string (.String s) = .error (.FromLuaConversionError "string" "&str" none)) := by
  refine ⟨rfl, fun b => rfl, rfl, ?_, fun i => rfl, fun n => rfl, ?_, ?_⟩
  · intro p hp
    simp [Value.to_string, hp]
  · intro s t ht
    simp [Value.to_string, LuaString.to_str, ht]
  · intro s hs
    simp [Value.to_string, LuaString.to_str, hs]

/-- C3 witness: the pointer-tagged arm at pointer `255` and the failing
`String` arm at the invalid byte `0xC0`. -/
theorem c3_to_string_amended_witness :
    Value.to_string (.LightUserData 255) = .ok ("lightuserdata: 0x" ++ natToHex 255) ∧
    Value.to_string (.String ⟨[192], 3⟩) =
      .error (.FromLuaConversionError "string" "&str" none) :=
  ⟨c3_to_string_amended.2.2.2.1 255 (by decide),
    c3_to_string_amended.2.2.2.2.2.2.2 ⟨[192], 3⟩ rfl⟩

/-- C4 counterexample: `cmp` is not transitive, hence not a total order —
`Number(1)`, `Number(NaN)`, `Number(2)` compare `Equal`, `Equal`, yet
`Number(1)` is `Less` than `Number(2)` (`cmp_num` answers `Equal` for any
comparison involving `NaN`). -/
theorem c4_cmp_total_order_counterexample :
    Value.cmp (.Number (.finite 1)) (.Number .nan) = .eq ∧
    Value.cmp (.Number .nan) (.Number (.finite 2)) = .eq ∧
    Value.cmp (.Number (.finite 1)) (.Number (.finite 2)) = .lt :=
  ⟨rfl, rfl, by decide⟩

/-- C4 amended: `cmp` satisfies swap-duality (`Less` iff the reversed
comparison is `Greater`, `Equal` iff the reversed comparison is `Equal`)
on all values; it is transitive (on both `Less` and `Equal`) on values
containing no float `Number` variant; the variant classes are ordered
`Nil`, null `LightUserData`, `Boolean`, `Integer`/`Number`, `String`,
then the identity-pointer class; `Integer`/`Number` pairs compare
numerically with `Integer` promoted to float; `String` pairs compare
byte-lexicographically; and identity-pointer-class pairs compare by
`to_pointer`. -/
theorem c4_cmp_order_amended :
    (∀ a b : Value, Value.cmp a b = .lt ↔ Value.cmp b a = .gt) ∧
    (∀ a b : Value, Value.cmp a b = .eq ↔ Value.cmp b a = .eq) ∧
    (∀ a b c : Value, numberFree a = true → numberFree b = true → numberFree c = true →
      Value.cmp a b = .lt → Value.cmp b c = .lt → Value.cmp a c = .lt) ∧
    (∀ a b c : Value, numberFree a = true → numberFree b = true → numberFree c = true →
      Value.cmp a b = .eq → Value.cmp b c = .eq → Value.cmp a c = .eq) ∧
    (∀ a b : Value, vrank a < vrank b → Value.cmp a b = .lt) ∧
    (∀ a b : Int, Value.cmp (.Integer a) (.Integer b) = icmp a b) ∧
    (∀ (a : Int) (y : FP), Value.cmp (.Integer a) (.Number y) = cmpNum (FP.ofInt a) y) ∧
    (∀ (x : FP) (b : Int), Value.cmp (.Number x) (.Integer b) = cmpNum x (FP.ofInt b)) ∧
    (∀ x y : FP, Value.cmp (.Number x) (.Number y) = cmpNum x y) ∧
    (∀ s1 s2 : LuaString, Value.cmp (.String s1) (.String s2) = bcmp s1.bytes s2.bytes) ∧
    (∀ a b : Value, isPtrClass a = true → isPtrClass b = true →
      Value.cmp a b = ncmp a.toPointer b.toPointer) := by
  refine ⟨?_, ?_, ?_, ?_, ?_, fun a b => rfl, fun a y => rfl, fun x b => rfl,
    fun x y => rfl, fun s1 s2 => rfl, ?_⟩
  · intro a b
    rw [cmp_swap a b]
    generalize Value.cmp a b = o
    cases o <;> simp [Ordering.swap]
  · intro a b
    rw [cmp_swap a b]
    generalize Value.cmp a b = o
    cases o <;> simp [Ordering.swap]
  · intro a b c ha hb hc h1 h2
    rw [cmp_eq_kcmp a b ha hb] at h1
    rw [cmp_eq_kcmp b c hb hc] at h2
    rw [cmp_eq_kcmp a c ha hc]
    exact kcmp_lt_trans h1 h2
  · intro a b c ha hb hc h1 h2
    rw [cmp_eq_kcmp a b ha hb, kcmp_eq_iff] at h1
    rw [cmp_eq_kcmp b c hb hc, kcmp_eq_iff] at h2
    rw [cmp_eq_kcmp a c ha hc, kcmp_eq_iff]
    exact h1.trans h2
  · exact cmp_rank_lt
  · intro a b ha hb
    cases a <;> cases b <;>
      simp_all [isPtrClass, Value.cmp, cmpAfterNull, Value.toPointer, ncmp_self] <;>
      (try split_ifs) <;>
      simp_all [ncmp_self]

/-- C4 witness: `Less`-transitivity at `Integer(0) < Integer(1) <
Integer(2)` and class placement at `Boolean(true) < String("")`. -/
theorem c4_cmp_order_amended_witness :
    Value.cmp (.Integer 0) (.Integer 2) = .lt ∧
    Value.cmp (.Boolean true) (.String ⟨[], 0⟩) = .lt :=
  ⟨c4_cmp_order_amended.2.2.1 (.Integer 0) (.Integer 1) (.Integer 2) rfl rfl rfl
      (by decide) (by decide),
    c4_cmp_order_amended.2.2.2.2.1 (.Boolean true) (.String ⟨[], 0⟩) (by decide)⟩

/-- C5: `cmp` orders the concrete chain `Nil < LightUserData(null) <
Boolean(false) < Boolean(true) < Integer(1) < Number(1.5) < String("a")
< Table` pairwise for every table value, and `Integer(a) < Integer(b)`
yields `Less` whenever `a < b`. -/
theorem c5_cmp_concrete_chain :
    (∀ t : TableM, List.Pairwise (fun x y => Value.cmp x y = .lt) (chain t)) ∧
    (∀ a b : Int, a < b → Value.cmp (.Integer a) (.Integer b) = .lt) := by
  constructor
  · intro t
    simp only [chain]
    refine List.Pairwise.cons ?_ (List.Pairwise.cons ?_ (List.Pairwise.cons ?_
      (List.Pairwise.cons ?_ (List.Pairwise.cons ?_ (List.Pairwise.cons ?_
        (List.Pairwise.cons ?_
          (List.Pairwise.cons (fun y hy => absurd hy (List.not_mem_nil y))
            List.Pairwise.nil))))))) <;>
      intro y hy <;>
      fin_cases hy <;>
      first
        | rfl
        | exact cmp_int1_lt_num32
        | exact cmp_rank_lt _ _ (by decide)
  · intro a b h
    show icmp a b = .lt
    exact icmp_lt_iff.mpr h

/-- C5 witness: the chain at a concrete table and `Integer(1) <
Integer(2)`. -/
theorem c5_cmp_concrete_chain_witness :
    List.Pairwise (fun x y => Value.cmp x y = .lt) (chain ⟨6, none, ⟨true, .ok []⟩⟩) ∧
    Value.cmp (.Integer 1) (.Integer 2) = .lt :=
  ⟨c5_cmp_concrete_chain.1 ⟨6, none, ⟨true, .ok []⟩⟩,
    c5_cmp_concrete_chain.2 1 2 (by decide)⟩

/-- C6: `extend_from_values` pushes each successful value to the back in
iteration order, stops at the first error and returns it; the values
pushed before the failure remain, and nothing after the failure is
pushed (the final contents do not depend on the tail). -/
theorem c6_extend_from_values_stops_at_first_error :
    (∀ (acc vs : List Value) (e : LuaError) (post : List (Except LuaError Value)),
      extendFromValues acc (vs.map Except.ok ++ Except.error e :: post) =
        (.error e, acc ++ vs)) ∧
    (∀ acc vs : List Value, extendFromValues acc (vs.map Except.ok) = (.ok (), acc ++ vs)) := by
  constructor
  · intro acc vs e post
    induction vs generalizing acc with
    | nil => simp [extendFromValues]
    | cons v rest ih => simp [extendFromValues, ih]
  · intro acc vs
    induction vs generalizing acc with
    | nil => simp [extendFromValues]
    | cons v rest ih => simp [extendFromValues, ih]

/-- C7: dropping a VM-associated `MultiValue` returns its backing buffer
(emptied, capacity kept) to the pool; `with_lua_and_capacity` reuses a
pooled buffer when one exists (reserving at least `n` slots either way)
and allocates fresh otherwise; a drop-then-request round trip hands the
same buffer back; and consuming by `into_iter` transfers the values
without any pool interaction. -/
theorem c7_multivalue_pool_discipline :
    (∀ (mv : MultiValueM) (pool : Pool), mv.hasLua = true →
      MultiValueM.drop mv pool = ⟨mv.deque.cap, []⟩ :: pool) ∧
    (∀ (mv : MultiValueM) (pool : Pool), mv.hasLua = false →
      MultiValueM.drop mv pool = pool) ∧
    (∀ (d : Deque) (rest : Pool) (n : Nat),
      (withLuaAndCapacity (d :: rest) n).2 = rest ∧
      (withLuaAndCapacity (d :: rest) n).1.hasLua = true ∧
      n + d.vals.length ≤ (withLuaAndCapacity (d :: rest) n).1.deque.cap + d.vals.length) ∧
    (∀ n : Nat, withLuaAndCapacity ([] : Pool) n = (⟨⟨n, []⟩, true⟩, [])) ∧
    (∀ (mv : MultiValueM) (pool : Pool) (n : Nat), mv.hasLua = true → 0 < n →
      (withLuaAndCapacity (MultiValueM.drop mv pool) n).1.deque =
        ⟨max mv.deque.cap n, []⟩ ∧
      (withLuaAndCapacity (MultiValueM.drop mv pool) n).2 = pool) ∧
    (∀ mv : MultiValueM, MultiValueM.intoIter mv = mv.deque.vals) := by
  refine ⟨?_, ?_, ?_, ?_, ?_, fun mv => rfl⟩
  · intro mv pool h
    simp [MultiValueM.drop, h, pushMultivalueToPool, Deque.clear]
  · intro mv pool h
    simp [MultiValueM.drop, h]
  · intro d rest n
    refine ⟨rfl, rfl, ?_⟩
    by_cases hn : n > 0 <;>
      simp [withLuaAndCapacity, popMultivalueFromPool, hn, Deque.reserve] <;> omega
  · intro n
    rfl
  · intro mv pool n h hn
    simp [MultiValueM.drop, h, pushMultivalueToPool, withLuaAndCapacity,
      popMultivalueFromPool, Deque.clear, Deque.reserve, hn]

/-- C7 witness: a container holding one value with capacity 4 is dropped
into an empty pool and immediately handed back with capacity
`max 4 2 = 4`. -/
theorem c7_multivalue_pool_discipline_witness :
    MultiValueM.drop ⟨⟨4, [Value.Nil]⟩, true⟩ [] = [⟨4, []⟩] ∧
    (withLuaAndCapacity (MultiValueM.drop ⟨⟨4, [Value.Nil]⟩, true⟩ []) 2).1.deque =
      ⟨max 4 2, []⟩ :=
  ⟨c7_multivalue_pool_discipline.1 ⟨⟨4, [Value.Nil]⟩, true⟩ [] rfl,
    (c7_multivalue_pool_discipline.2.2.2.2.1 ⟨⟨4, [Value.Nil]⟩, true⟩ [] 2 rfl
      (by decide)).1⟩

/-- C8 counterexample: the default `from_lua_args` forwards the inner
conversion's failure unwrapped — the produced error is a plain runtime
error, not a bad-argument error, so not every argument-position variant
wraps failures. -/
theorem c8_arg_wrapping_counterexample :
    fromLuaArgs failMulti [] 1 (some "f") = .error (.RuntimeError "boom") ∧
    LuaError.isBadArgument (.RuntimeError "boom") = false := ⟨rfl, rfl⟩

/-- C8 amended: the single-value argument variants `from_lua_arg` and
`from_stack_arg` wrap a conversion failure in a bad-argument error
carrying the position and the called function's name with the original
failure unaltered as the cause (successes pass through untouched), while
the default multi-value variants `from_lua_args` and `from_stack_args`
discard the position information and forward the conversion unchanged. -/
theorem c8_arg_wrapping_amended :
    (∀ (α : Type) (f : Value → Except LuaError α) (arg : Value) (i : Nat)
        (toFn : Option String) (e : LuaError), f arg = .error e →
      fromLuaArg f arg i toFn = .error (.BadArgument toFn i none e)) ∧
    (∀ (α : Type) (f : Value → Except LuaError α) (arg : Value) (i : Nat)
        (toFn : Option String) (v : α), f arg = .ok v →
      fromLuaArg f arg i toFn = .ok v) ∧
    (∀ (α : Type) (f : Value → Except LuaError α) (sv : Int → Value) (idx : Int)
        (i : Nat) (toFn : Option String) (e : LuaError), f (sv idx) = .error e →
      fromStackArg f sv idx i toFn = .error (.BadArgument toFn i none e)) ∧
    (∀ (α : Type) (f : Value → Except LuaError α) (sv : Int → Value) (idx : Int)
        (i : Nat) (toFn : Option String) (v : α), f (sv idx) = .ok v →
      fromStackArg f sv idx i toFn = .ok v) ∧
    (∀ (α : Type) (F : List Value → Except LuaError α) (args : List Value)
        (i : Nat) (toFn : Option String), fromLuaArgs F args i toFn = F args) ∧
    (∀ (α : Type) (G : Nat → Except LuaError α) (nargs i : Nat) (toFn : Option String),
      fromStackArgs G nargs i toFn = G nargs) := by
  refine ⟨?_, ?_, ?_, ?_, fun α F args i toFn => rfl, fun α G nargs i toFn => rfl⟩
  · intro α f arg i toFn e h
    simp [fromLuaArg, h]
  · intro α f arg i toFn v h
    simp [fromLuaArg, h]
  · intro α f sv idx i toFn e h
    simp [fromStackArg, fromStack, h]
  · intro α f sv idx i toFn v h
    simp [fromStackArg, fromStack, h]

/-- C8 witness: the single-value wrappers at a concrete failing
conversion. -/
theorem c8_arg_wrapping_amended_witness :
    fromLuaArg failSingle .Nil 2 (some "g") =
      .error (.BadArgument (some "g") 2 none (.RuntimeError "bad type")) ∧
    fromStackArg failSingle (fun _ => .Nil) (-1) 3 none =
      .error (.BadArgument none 3 none (.RuntimeError "bad type")) :=
  ⟨c8_arg_wrapping_amended.1 Unit failSingle .Nil 2 (some "g") (.RuntimeError "bad type") rfl,
    c8_arg_wrapping_amended.2.2.1 Unit failSingle (fun _ => .Nil) (-1) 3 none
      (.RuntimeError "bad type") rfl⟩

/-- C9: the handle arm of `Value::to_string` leaves the VM operand stack
at its entry depth on every exit path — `check_stack` failure, an error
raised inside the protected `luaL_tolstring` call (e.g. by a
`__tostring` metamethod), a string decoding failure, or normal return. -/
theorem c9_to_string_stack_balance (vm : ToStringVM) (depth : Nat) :
    (toStringRef vm depth).2 = depth := by
  rcases vm with ⟨ok, tol⟩
  cases ok <;> cases tol <;>
    simp [toStringRef, StackGuard.new, StackGuard.restore]
  case true.ok bytes =>
    rcases h : utf8DecodeString bytes with _ | t <;> simp [h]

/-- C10: two `Error` values are never `==`-equal (the `PartialEq`
fall-through arm), so `v.equals(v)` is `Ok(false)` for every
`Error`-variant value `v`, even with identical embedded content. -/
theorem c10_error_values_never_equal :
    (∀ e1 e2 : LuaError, Value.beq (.Error e1) (.Error e2) = false) ∧
    (∀ e : LuaError, Value.equals (.Error e) (.Error e) = .ok false) :=
  ⟨fun _ _ => rfl, fun _ => rfl⟩

end Mlua
